import Mathlib

/-!
Verification of the Fun Text Transformer actor (src/main.ts of the
apify-actor-project repository, standby/standard dispatcher and its
transformation registry).

JavaScript strings are modelled as Lean `String`/`List Char` at the level of
Unicode scalar values; every input exercised by a theorem below is such that
the UTF-16 code-unit view of the JavaScript engine and the scalar view agree
on the stated property.
-/

namespace FunText

/-! ## Generic character and replacement helpers

These model the JavaScript `String.prototype.replace` calls with global
regexes used by the source: scanning left to right, replacing each match and
resuming after the replaced segment (the replacement text is not rescanned).
-/

/-- Case folding used by the `i` regex flag; the source patterns are all
ASCII, for which folding coincides with ASCII lower-casing. -/
def ciEq (c p : Char) : Bool := c.toLower == p.toLower

/-- Plain character equality, for case-sensitive literal patterns. -/
def csEq (c p : Char) : Bool := c == p

/-- Does `s` start with pattern `pat`, comparing characters with `f`
(input character first, pattern character second)? -/
def startsWithBy (f : Char → Char → Bool) : List Char → List Char → Bool
  | [], _ => true
  | _ :: _, [] => false
  | p :: ps, c :: cs => f c p && startsWithBy f ps cs

/-- One global-replace pass: at each position, if the (nonempty) pattern
matches, emit the replacement and resume after the matched input segment;
otherwise copy one character.  `fuel` is the length of the scanned list, which
bounds the number of steps since every step consumes at least one character. -/
def replaceByAux (f : Char → Char → Bool) (pat rep : List Char) :
    Nat → List Char → List Char
  | 0, s => s
  | _ + 1, [] => []
  | fuel + 1, c :: cs =>
    if (!pat.isEmpty) && startsWithBy f pat (c :: cs) then
      rep ++ replaceByAux f pat rep fuel ((c :: cs).drop pat.length)
    else
      c :: replaceByAux f pat rep fuel cs

/-- Global case-insensitive literal replacement: `text.replace(/pat/gi, rep)`
for a pattern with no regex metacharacters. -/
def replaceCI (pat rep s : List Char) : List Char :=
  replaceByAux ciEq pat rep s.length s

/-- Global case-sensitive literal replacement: `text.replace(/pat/g, rep)`. -/
def replaceLit (pat rep s : List Char) : List Char :=
  replaceByAux csEq pat rep s.length s

/-- The regex word-character class `\w` (ASCII letters, digits, underscore),
which also determines `\b` boundaries. -/
def wordChar (c : Char) : Bool := c.isAlphanum || c == '_'

/-- A `\b` boundary holds before a word character when the preceding input
character (if any) is not a word character. -/
def boundaryBeforeOk (prev : Option Char) : Bool :=
  match prev with
  | none => true
  | some p => !wordChar p

/-- A `\b` boundary holds after a word character when the following input
character (if any) is not a word character. -/
def boundaryAfterOk (rest : List Char) : Bool :=
  match rest with
  | [] => true
  | c :: _ => !wordChar c

/-- One global pass of `text.replace(/\bpat\b/gi, rep)` for a purely
alphabetic pattern (so both boundaries sit between a word and a non-word
character).  `prev` is the previously scanned input character; after a match
the scan resumes after the matched input segment, whose last character
becomes the new `prev`. -/
def replaceWordAux (pat rep : List Char) :
    Nat → Option Char → List Char → List Char
  | 0, _, s => s
  | _ + 1, _, [] => []
  | fuel + 1, prev, c :: cs =>
    if (!pat.isEmpty) && boundaryBeforeOk prev &&
        startsWithBy ciEq pat (c :: cs) &&
        boundaryAfterOk ((c :: cs).drop pat.length) then
      rep ++ replaceWordAux pat rep fuel
        (((c :: cs).take pat.length).getLast?) ((c :: cs).drop pat.length)
    else
      c :: replaceWordAux pat rep fuel (some c) cs

/-- Whole-word case-insensitive global replacement. -/
def replaceWordCI (pat rep s : List Char) : List Char :=
  replaceWordAux pat rep s.length none s

/-- Case-sensitive substring containment (property language for the claims). -/
def containsSub (pat : List Char) : List Char → Bool
  | [] => pat.isEmpty
  | c :: cs => startsWithBy csEq pat (c :: cs) || containsSub pat cs

/-- Scan for a whole-word case-insensitive occurrence of a purely alphabetic
pattern, tracking the previous character for the left boundary. -/
def containsWordCIAux (pat : List Char) : Option Char → List Char → Bool
  | _, [] => false
  | prev, c :: cs =>
    (boundaryBeforeOk prev && startsWithBy ciEq pat (c :: cs) &&
      boundaryAfterOk ((c :: cs).drop pat.length)) ||
    containsWordCIAux pat (some c) cs

/-- Whole-word case-insensitive containment (property language for C6). -/
def containsWordCI (pat s : List Char) : Bool :=
  containsWordCIAux pat none s

/-- Replace the two characters of a regex class such as `[aA]` by a fixed
character: one `text.replace(/[xy]/g, r)` pass, which is a per-character map. -/
def charRepl (a b r : Char) (c : Char) : Char :=
  if c = a ∨ c = b then r else c

/-- Map a two-character-class replacement over a string. -/
def replClass (a b r : Char) (l : List Char) : List Char :=
  l.map (charRepl a b r)

/-! ## The transformation registry (src/main.ts lines 5 to 52) -/

/-- `reverse`: `text.split('').reverse().join('')`. -/
def reverse (s : String) : String := ⟨s.data.reverse⟩

/-- `uppercase`: `text.toUpperCase()` (ASCII model; no theorem below
evaluates it on non-ASCII input). -/
def uppercase (s : String) : String := ⟨s.data.map Char.toUpper⟩

/-- `lowercase`: `text.toLowerCase()` (ASCII model; no theorem below
evaluates it on non-ASCII input). -/
def lowercase (s : String) : String := ⟨s.data.map Char.toLower⟩

/-- `leetspeak`: six chained global class replacements, `[aA]` to `4` first,
then `[eE]` to `3`, `[iI]` to `1`, `[oO]` to `0`, `[sS]` to `5`, `[tT]` to
`7`, each applied to the output of the previous one. -/
def leetspeak (s : String) : String :=
  ⟨replClass 't' 'T' '7' (replClass 's' 'S' '5' (replClass 'o' 'O' '0'
    (replClass 'i' 'I' '1' (replClass 'e' 'E' '3'
      (replClass 'a' 'A' '4' s.data)))))⟩

/-- `spongebob`: alternate lower/upper case by character index, lowercase at
even indices. -/
def spongebob (s : String) : String :=
  ⟨(s.data.enum).map (fun p => if p.1 % 2 == 0 then p.2.toLower else p.2.toUpper)⟩

/-- The emoji trigger table, in the insertion order of the source object
literal (the order `Object.entries` iterates). -/
def emojiMapList : List (String × String) :=
  [("happy", "😊"), ("sad", "😢"), ("love", "❤️"), ("fire", "🔥"),
   ("cool", "😎"), ("laugh", "😂"), ("think", "🤔"), ("wow", "😮"),
   ("rocket", "🚀"), ("star", "⭐"), ("heart", "💖"), ("party", "🎉")]

/-- The replacement text for one emoji trigger: the lowercase trigger word,
a space, and its emoji. -/
def emojiRep (p : String × String) : List Char :=
  p.1.data ++ ' ' :: p.2.data

/-- `emojify`: for each table entry in order, one global case-insensitive
replacement of the trigger word by the word-plus-emoji text, each pass
applied to the output of the previous one. -/
def emojify (s : String) : String :=
  ⟨emojiMapList.foldl (fun acc p => replaceCI p.1.data (emojiRep p) acc) s.data⟩

/-- The pirate replacement table, in source order.  The replacement for
`the` is `th` followed by an apostrophe (character 39). -/
def pirateWords : List (List Char × List Char) :=
  [("you".data, "ye".data), ("my".data, "me".data), ("is".data, "be".data),
   ("the".data, "th".data ++ [Char.ofNat 39]),
   ("hello".data, "ahoy".data), ("friend".data, "matey".data)]

/-- `pirate`: six chained whole-word case-insensitive replacements in table
order, then the literal suffix of a space and the skull emoji. -/
def pirate (s : String) : String :=
  ⟨(pirateWords.foldl (fun acc p => replaceWordCI p.1 p.2 acc) s.data) ++
    (" ☠️").data⟩

/-- Insert `y` after a lowercase `n` that precedes a lowercase vowel
(`text.replace(/n([aeiou])/g, ...)`); the scan resumes after the vowel. -/
def nyLow : List Char → List Char
  | [] => []
  | [c] => [c]
  | c1 :: c2 :: rest =>
    if c1 == 'n' && ['a', 'e', 'i', 'o', 'u'].contains c2 then
      'n' :: 'y' :: c2 :: nyLow rest
    else
      c1 :: nyLow (c2 :: rest)

/-- Insert `y` after an uppercase `N` that precedes a lowercase vowel
(`text.replace(/N([aeiou])/g, ...)`). -/
def nyCap : List Char → List Char
  | [] => []
  | [c] => [c]
  | c1 :: c2 :: rest =>
    if c1 == 'N' && ['a', 'e', 'i', 'o', 'u'].contains c2 then
      'N' :: 'y' :: c2 :: nyCap rest
    else
      c1 :: nyCap (c2 :: rest)

/-- `uwu`: `[rl]` to `w`, `[RL]` to `W`, the two n-vowel insertions, the
literal `ove` to `uv` replacement, then the literal suffix. -/
def uwu (s : String) : String :=
  ⟨(replaceLit ("ove".data) ("uv".data)
      (nyCap (nyLow (replClass 'R' 'L' 'W' (replClass 'r' 'l' 'w' s.data)))))
    ++ (" uwu").data⟩

/-- The registry: the object literal `transformations`, as an ordered
association list from transform name to function (insertion order). -/
def registryPairs : List (String × (String → String)) :=
  [("reverse", reverse), ("uppercase", uppercase), ("lowercase", lowercase),
   ("leetspeak", leetspeak), ("spongebob", spongebob), ("emojify", emojify),
   ("pirate", pirate), ("uwu", uwu)]

/-- `Object.keys(transformations)`: the own enumerable keys in insertion
order. -/
def registryNames : List String := registryPairs.map Prod.fst

/-! ## Claim C8: reverse is an involution -/

/-- C8: the reverse transform is an involution: for every string `s`,
`reverse (reverse s) = s`. -/
theorem c8_reverse_involution : ∀ s : String, reverse (reverse s) = s := by
  intro s
  cases s with
  | mk data => simp [reverse]

/-! ## Claim C7: leetspeak is the pointwise substitution table -/

/-- Modelled from the spec: the pointwise leetspeak substitution table,
`a` and `A` to `4`, `e` and `E` to `3`, `i` and `I` to `1`, `o` and `O` to
`0`, `s` and `S` to `5`, `t` and `T` to `7`, all other characters kept. -/
def leetCharSpec (c : Char) : Char :=
  if c = 'a' ∨ c = 'A' then '4'
  else if c = 'e' ∨ c = 'E' then '3'
  else if c = 'i' ∨ c = 'I' then '1'
  else if c = 'o' ∨ c = 'O' then '0'
  else if c = 's' ∨ c = 'S' then '5'
  else if c = 't' ∨ c = 'T' then '7'
  else c

lemma leet_pointwise (c : Char) :
    charRepl 't' 'T' '7' (charRepl 's' 'S' '5' (charRepl 'o' 'O' '0'
      (charRepl 'i' 'I' '1' (charRepl 'e' 'E' '3'
        (charRepl 'a' 'A' '4' c))))) = leetCharSpec c := by
  by_cases h1 : c = 'a'
  · subst h1; decide
  by_cases h2 : c = 'A'
  · subst h2; decide
  by_cases h3 : c = 'e'
  · subst h3; decide
  by_cases h4 : c = 'E'
  · subst h4; decide
  by_cases h5 : c = 'i'
  · subst h5; decide
  by_cases h6 : c = 'I'
  · subst h6; decide
  by_cases h7 : c = 'o'
  · subst h7; decide
  by_cases h8 : c = 'O'
  · subst h8; decide
  by_cases h9 : c = 's'
  · subst h9; decide
  by_cases h10 : c = 'S'
  · subst h10; decide
  by_cases h11 : c = 't'
  · subst h11; decide
  by_cases h12 : c = 'T'
  · subst h12; decide
  simp [charRepl, leetCharSpec, h1, h2, h3, h4, h5, h6, h7, h8, h9, h10,
    h11, h12]

lemma leet_list : ∀ l : List Char,
    replClass 't' 'T' '7' (replClass 's' 'S' '5' (replClass 'o' 'O' '0'
      (replClass 'i' 'I' '1' (replClass 'e' 'E' '3'
        (replClass 'a' 'A' '4' l))))) = l.map leetCharSpec := by
  intro l
  induction l with
  | nil => rfl
  | cons c t ih =>
    simp only [replClass, List.map_cons] at ih ⊢
    rw [leet_pointwise c, ih]

/-- C7: the leetspeak transform substitutes every occurrence,
case-insensitively, of a to 4, e to 3, i to 1, o to 0, s to 5, t to 7,
leaving all other characters unchanged; in particular
`leetspeak "test" = "7357"`. -/
theorem c7_leetspeak_pointwise :
    (∀ s : String, (leetspeak s).data = s.data.map leetCharSpec) ∧
      leetspeak "test" = "7357" := by
  refine ⟨fun s => leet_list s.data, by decide⟩

/-! ## Claim C6: pirate replacements and suffix -/

/-- C6: the pirate transform applies the whole-word case-insensitive
replacements in fixed order, each to the output of the previous, then appends
the literal skull suffix; every output ends with that suffix, and
`pirate "Hello my friend"` equals `ahoy me matey` plus the suffix and
contains no case-insensitive whole-word occurrence of hello, my, or friend. -/
theorem c6_pirate :
    (∀ s : String, List.IsSuffix ((" ☠️").data) (pirate s).data) ∧
      pirate "Hello my friend" = "ahoy me matey ☠️" ∧
      containsWordCI ("hello".data) ((pirate "Hello my friend").data) = false ∧
      containsWordCI ("my".data) ((pirate "Hello my friend").data) = false ∧
      containsWordCI ("friend".data) ((pirate "Hello my friend").data) = false := by
  refine ⟨fun s => ⟨_, rfl⟩, by decide, by decide, by decide, by decide⟩

/-! ## JavaScript values

`JSON.parse` results and the values flowing through the standby handler. -/

/-- A parsed JSON value.  Numbers keep their lexeme: no theorem below depends
on numeric re-formatting. -/
inductive JsonValue where
  | null
  | bool (b : Bool)
  | num (lexeme : String)
  | str (s : String)
  | arr (elems : List JsonValue)
  | obj (fields : List (String × JsonValue))

/-- A JSON number is zero exactly when its mantissa has no nonzero digit
(the exponent cannot change that). -/
def numLexIsZero (lex : String) : Bool :=
  (lex.data.takeWhile (fun c => c != 'e' && c != 'E')).all
    (fun c => !c.isDigit || c == '0')

/-- JavaScript truthiness of a parsed JSON value: null, false, zero and the
empty string are falsy; every array and object is truthy. -/
def jsTruthy : JsonValue → Bool
  | .null => false
  | .bool b => b
  | .num lex => !(numLexIsZero lex)
  | .str s => !(s == "")
  | .arr _ => true
  | .obj _ => true

/-- Property access `v[key]` on a parsed JSON value: own field of an object
(`JSON.parse` keeps the last duplicate key), undefined (`none`) otherwise. -/
def objField (v : JsonValue) (key : String) : Option JsonValue :=
  match v with
  | .obj fields => List.lookup key fields.reverse
  | _ => none

/-- `x || d` on an optional value: the value if present and truthy, else the
default. -/
def jsOrDefault (o : Option JsonValue) (d : JsonValue) : JsonValue :=
  match o with
  | some v => if jsTruthy v then v else d
  | none => d

/-- String coercion of an array element for `Array.prototype.join` (null
renders empty; nested arrays are approximated as empty, which no claim
depends on). -/
def jsPropertyKeyFlat : JsonValue → String
  | .str s => s
  | .bool b => if b then "true" else "false"
  | .null => ""
  | .num lex => lex
  | .arr _ => ""
  | .obj _ => "[object Object]"

/-- The property key a value coerces to when used as an index,
`transformations[transform]`: strings index directly, other values go through
ToString (numbers via their lexeme, arrays via a comma join). -/
def jsPropertyKey : JsonValue → String
  | .str s => s
  | .bool b => if b then "true" else "false"
  | .null => "null"
  | .num lex => lex
  | .arr es => String.intercalate "," (es.map jsPropertyKeyFlat)
  | .obj _ => "[object Object]"

/-! ## The transformation engine (src/main.ts lines 112 to 113 and 168 to 169)

`transformations` is a plain object literal, so indexing it falls back to the
members inherited from `Object.prototype` when the key is not an own key.
Those members are functions (or, for the `__proto__` accessor, an object), so
the truthiness test `transformFn ? transformFn(message) : message` passes for
them and they are invoked with `this = undefined` (module code is strict).
-/

/-- The property names the object literal inherits from `Object.prototype`
(including the Annex B accessor-definition methods present in Node and Bun). -/
def protoNames : List String :=
  ["constructor", "toString", "toLocaleString", "valueOf", "hasOwnProperty",
   "isPrototypeOf", "propertyIsEnumerable", "__proto__", "__defineGetter__",
   "__defineSetter__", "__lookupGetter__", "__lookupSetter__"]

/-- Result of invoking an inherited `Object.prototype` member with
`this = undefined` and the message as argument:
`constructor` is `Object`, whose result JSON-serializes back to the argument;
`toString` returns the string `[object Undefined]`;
`isPrototypeOf` returns false for a primitive argument and throws (TypeError
from `ToObject(undefined)`) for an object argument;
every other inherited member throws a TypeError (`ToObject(undefined)` or a
method call on undefined, or calling the non-callable `__proto__` value). -/
def protoCall (name : String) (arg : JsonValue) : Except Unit JsonValue :=
  if name = "constructor" then .ok arg
  else if name = "toString" then .ok (.str "[object Undefined]")
  else if name = "isPrototypeOf" then
    match arg with
    | .arr _ => .error ()
    | .obj _ => .error ()
    | _ => .ok (.bool false)
  else .error ()

/-- `transformations[key]` followed by
`transformFn ? transformFn(message) : message`: an own registry entry is a
string function (throwing on a non-string message, whose string methods are
absent); an inherited member is invoked per `protoCall`; any other key gives
undefined, which is falsy, so the message is returned unchanged. -/
def applyTransformValue (t m : JsonValue) : Except Unit JsonValue :=
  match List.lookup (jsPropertyKey t) registryPairs with
  | some f =>
    match m with
    | .str s => .ok (.str (f s))
    | _ => .error ()
  | none =>
    if jsPropertyKey t ∈ protoNames then protoCall (jsPropertyKey t) m
    else .ok m

/-- The engine on plain string name and text. -/
def applyTransformJS (name text : String) : Except Unit JsonValue :=
  applyTransformValue (.str name) (.str text)

/-! ## JSON parsing

A model of `JSON.parse`: `none` is a thrown SyntaxError.  The grammar is the
JSON one: optional insignificant whitespace, `null`, booleans, numbers
(no leading zeros, optional fraction with at least one digit, optional
exponent), strings with escapes, arrays and objects, and nothing after the
top-level value.
-/

/-- JSON insignificant whitespace. -/
def jsonWs (c : Char) : Bool := c == ' ' || c == '\t' || c == '\n' || c == '\r'

/-- Skip insignificant whitespace. -/
def skipWs (l : List Char) : List Char := l.dropWhile jsonWs

/-- Value of a hexadecimal digit. -/
def hexVal (c : Char) : Option Nat :=
  if c.isDigit then some (c.toNat - 48)
  else if 'a' ≤ c ∧ c ≤ 'f' then some (c.toNat - 87)
  else if 'A' ≤ c ∧ c ≤ 'F' then some (c.toNat - 55)
  else none

/-- Decode a single-character string escape. -/
def escChar (c : Char) : Option Char :=
  if c = '"' ∨ c = '\\' ∨ c = '/' then some c
  else if c = 'b' then some (Char.ofNat 8)
  else if c = 'f' then some (Char.ofNat 12)
  else if c = 'n' then some '\n'
  else if c = 'r' then some '\r'
  else if c = 't' then some '\t'
  else none

/-- Parse the remainder of a JSON string after the opening quote, returning
its contents and the input after the closing quote.  Raw control characters
are rejected; `\u` escapes outside the scalar range are approximated by
`Char.ofNat` (no claim input contains an escape).  The fuel is the input
length. -/
def parseStrAux : Nat → List Char → Option (List Char × List Char)
  | 0, _ => none
  | _ + 1, [] => none
  | fuel + 1, c :: r =>
    if c = '"' then some ([], r)
    else if c = '\\' then
      match r with
      | [] => none
      | e :: r2 =>
        if e = 'u' then
          match r2 with
          | h1 :: h2 :: h3 :: h4 :: r3 =>
            match hexVal h1, hexVal h2, hexVal h3, hexVal h4 with
            | some v1, some v2, some v3, some v4 =>
              match parseStrAux fuel r3 with
              | some (cs, rest) =>
                some (Char.ofNat (((v1 * 16 + v2) * 16 + v3) * 16 + v4) :: cs,
                  rest)
              | none => none
            | _, _, _, _ => none
          | _ => none
        else
          match escChar e with
          | some d =>
            match parseStrAux fuel r2 with
            | some (cs, rest) => some (d :: cs, rest)
            | none => none
          | none => none
    else if c.toNat < 32 then none
    else
      match parseStrAux fuel r with
      | some (cs, rest) => some (c :: cs, rest)
      | none => none

/-- Split leading decimal digits. -/
def takeDigits (l : List Char) : List Char × List Char :=
  (l.takeWhile Char.isDigit, l.dropWhile Char.isDigit)

/-- Parse the integer part of a JSON number: `0`, or a nonzero digit followed
by digits. -/
def parseIntPart (l : List Char) : Option (List Char × List Char) :=
  match l with
  | '0' :: r => some (['0'], r)
  | c :: _ =>
    if c.isDigit then some (takeDigits l) else none
  | [] => none

/-- Parse an optional fraction part: a dot must be followed by at least one
digit. -/
def parseFracPart (l : List Char) : Option (List Char × List Char) :=
  match l with
  | '.' :: r =>
    match takeDigits r with
    | ([], _) => none
    | (ds, rest) => some ('.' :: ds, rest)
  | _ => some ([], l)

/-- Parse an optional exponent part: `e` or `E`, an optional sign, and at
least one digit. -/
def parseExpPart (l : List Char) : Option (List Char × List Char) :=
  match l with
  | e :: r =>
    if e = 'e' ∨ e = 'E' then
      let (sgn, r2) :=
        match r with
        | '+' :: r3 => (['+'], r3)
        | '-' :: r3 => (['-'], r3)
        | _ => ([], r)
      match takeDigits r2 with
      | ([], _) => none
      | (ds, rest) => some (e :: (sgn ++ ds), rest)
    else some ([], l)
  | [] => some ([], l)

/-- Parse a JSON number, returning its lexeme and the rest of the input. -/
def parseNumber (l : List Char) : Option (List Char × List Char) :=
  let (neg, l1) :=
    match l with
    | '-' :: r => (['-'], r)
    | _ => ([], l)
  match parseIntPart l1 with
  | none => none
  | some (ip, r1) =>
    match parseFracPart r1 with
    | none => none
    | some (fp, r2) =>
      match parseExpPart r2 with
      | none => none
      | some (ep, r3) => some (neg ++ ip ++ fp ++ ep, r3)

/-- Parse one JSON value, returning it and the rest of the input.  Array and
object tails are parsed by re-entering with a synthetic opening bracket, so
the recursion is structural on the fuel; fuel `length + 1` suffices because
every re-entry has consumed at least one net character. -/
def parseVal : Nat → List Char → Option (JsonValue × List Char)
  | 0, _ => none
  | fuel + 1, s =>
    match skipWs s with
    | 'n' :: 'u' :: 'l' :: 'l' :: r => some (.null, r)
    | 't' :: 'r' :: 'u' :: 'e' :: r => some (.bool true, r)
    | 'f' :: 'a' :: 'l' :: 's' :: 'e' :: r => some (.bool false, r)
    | '"' :: r =>
      match parseStrAux r.length r with
      | some (cs, rest) => some (.str ⟨cs⟩, rest)
      | none => none
    | '[' :: r =>
      match skipWs r with
      | ']' :: r2 => some (.arr [], r2)
      | r1 =>
        match parseVal fuel r1 with
        | none => none
        | some (v, r2) =>
          match skipWs r2 with
          | ',' :: r3 =>
            match skipWs r3 with
            | ']' :: _ => none
            | _ =>
              match parseVal fuel ('[' :: r3) with
              | some (.arr vs, r4) => some (.arr (v :: vs), r4)
              | _ => none
          | ']' :: r3 => some (.arr [v], r3)
          | _ => none
    | '{' :: r =>
      match skipWs r with
      | '}' :: r2 => some (.obj [], r2)
      | '"' :: rk =>
        match parseStrAux rk.length rk with
        | none => none
        | some (k, r1) =>
          match skipWs r1 with
          | ':' :: r2 =>
            match parseVal fuel r2 with
            | none => none
            | some (v, r3) =>
              match skipWs r3 with
              | ',' :: r4 =>
                match skipWs r4 with
                | '}' :: _ => none
                | _ =>
                  match parseVal fuel ('{' :: r4) with
                  | some (.obj fs, r5) => some (.obj ((⟨k⟩, v) :: fs), r5)
                  | _ => none
              | '}' :: r4 => some (.obj [(⟨k⟩, v)], r4)
              | _ => none
          | _ => none
      | _ => none
    | c :: r =>
      if c = '-' ∨ c.isDigit then
        match parseNumber (c :: r) with
        | some (lex, rest) => some (.num ⟨lex⟩, rest)
        | none => none
      else none
    | [] => none

/-- `JSON.parse`: parse one value and require only whitespace after it;
`none` models the thrown SyntaxError. -/
def jsonParse (s : String) : Option JsonValue :=
  match parseVal (s.data.length + 1) s.data with
  | some (v, rest) => if skipWs rest = [] then some v else none
  | none => none

/-! ## Query-string parsing (the WHATWG URL model)

The handler builds `new URL(req.url, base)` and reads
`url.searchParams.get(name)`: the query is the part of the request target
after the first `?` and before any `#`; parameters are split on `&`, a key is
the part before the first `=`, `+` decodes to a space, and `get` returns the
first value for the key.  Percent-escapes are not modelled; no claim input
contains one. -/

/-- Split a character list on a separator character. -/
def splitOnChar (sep : Char) (l : List Char) : List (List Char) :=
  l.foldr
    (fun c acc =>
      match acc with
      | [] => [[c]]
      | h :: t => if c == sep then [] :: h :: t else (c :: h) :: t)
    [[]]

/-- Form decoding of one key or value: `+` means space. -/
def formPlusDecode (l : List Char) : List Char :=
  l.map (fun c => if c == '+' then ' ' else c)

/-- The ordered key-value pairs of the query string of a request target. -/
def queryPairs (url : String) : List (String × String) :=
  let preFrag := url.data.takeWhile (fun c => c != '#')
  let q := (preFrag.dropWhile (fun c => c != '?')).drop 1
  (splitOnChar '&' q).filterMap
    (fun piece =>
      if piece.isEmpty then none
      else
        some (⟨formPlusDecode (piece.takeWhile (fun c => c != '='))⟩,
          ⟨formPlusDecode ((piece.dropWhile (fun c => c != '=')).drop 1)⟩))

/-- `url.searchParams.get(key)`: the first value for the key, or null. -/
def queryParam (url key : String) : Option String :=
  List.lookup key (queryPairs url)

/-- Truthiness of `searchParams.get`: null and the empty string are falsy. -/
def optTruthyStr (o : Option String) : Bool :=
  match o with
  | some s => !(s == "")
  | none => false

/-! ## The standby request normalizer (src/main.ts lines 77 to 109) -/

/-- An inbound standby request: HTTP method, request target, body text, and
whether the readiness-probe header is present. -/
structure StandbyRequest where
  method : String
  url : String
  body : String
  readinessProbeHeader : Bool

/-- The default message used when none is supplied. -/
def defaultMessage : String := "Hello from Fun Text Transformer!"

/-- The body actually read: the request body for POST and PUT, the empty
string otherwise (lines 78 to 87). -/
def effectiveBody (req : StandbyRequest) : String :=
  if req.method = "POST" ∨ req.method = "PUT" then req.body else ""

/-- Lines 90 to 106: the raw `input` object, as the pair of the values later
read as `input.message` and `input.transform` (`none` is undefined).  A
nonempty body is parsed as JSON; a parse failure makes the whole raw body the
message; a body parsing to JSON `null` makes the later property access throw
a TypeError (modelled as `Except.error`, caught by the 500 handler).  With no
body, a truthy `message` query parameter (with the optional `transform`
parameter) populates the input; otherwise the input stays empty. -/
def normalizeInput (body url : String) :
    Except Unit (Option JsonValue × Option JsonValue) :=
  if body ≠ "" then
    match jsonParse body with
    | some .null => .error ()
    | some v => .ok (objField v "message", objField v "transform")
    | none => .ok (some (.str body), none)
  else if url ≠ "" then
    let m := queryParam url "message"
    let t := queryParam url "transform"
    if optTruthyStr m then
      .ok (some (.str (m.getD "")),
        if optTruthyStr t then some (.str (t.getD "")) else none)
    else .ok (none, none)
  else .ok (none, none)

/-- Lines 77 to 109 end to end: the normalized `(message, transform)` pair,
each falling back to its default when absent or falsy (lines 108 to 109). -/
def normalizeStandby (req : StandbyRequest) :
    Except Unit (JsonValue × JsonValue) :=
  match normalizeInput (effectiveBody req) req.url with
  | .error e => .error e
  | .ok (m, t) =>
    .ok (jsOrDefault m (.str defaultMessage), jsOrDefault t (.str "emojify"))

/-! ## Result records and the two pipelines -/

/-- The result record assembled by the standby branch (lines 116 to 126).
The timestamp is wall-clock input. -/
structure StandbyResult where
  original : JsonValue
  transformed : JsonValue
  transformation : JsonValue
  availableTransforms : List String
  timestamp : String
  status : String
  processedBy : String
  method : String
  url : String

/-- The body of an HTTP response: plain text, the JSON-rendered result
record, or the error JSON of the catch branch. -/
inductive ResponseBody where
  | text (s : String)
  | json (r : StandbyResult)
  | errorJson

/-- An HTTP response: status code, content type, body. -/
structure HttpResponse where
  status : Nat
  contentType : String
  body : ResponseBody

/-- The observable outcome of handling one standby request: the response,
the records pushed to the dataset, and whether the
normalize-transform-assemble pipeline ran at all. -/
structure HandlerOutcome where
  response : HttpResponse
  datasetWrites : List StandbyResult
  pipelineRan : Bool

/-- The standby HTTP handler (lines 65 to 144): a request carrying the
readiness-probe header is answered immediately with the fixed 200 text/plain
`Ready!` line and nothing else happens; otherwise the pipeline runs, any
thrown error is answered with a 500 error JSON, and a successful run pushes
the assembled record to the dataset and echoes it as the 200 JSON response. -/
def standbyHandler (req : StandbyRequest) (timestamp : String) :
    HandlerOutcome :=
  if req.readinessProbeHeader then
    ⟨⟨200, "text/plain", .text "Ready!\n"⟩, [], false⟩
  else
    match normalizeStandby req with
    | .error _ => ⟨⟨500, "application/json", .errorJson⟩, [], true⟩
    | .ok (m, t) =>
      match applyTransformValue t m with
      | .error _ => ⟨⟨500, "application/json", .errorJson⟩, [], true⟩
      | .ok transformed =>
        let record : StandbyResult :=
          ⟨m, transformed, t, registryNames, timestamp, "success",
            "Fun Text Transformer 🎨", req.method, req.url⟩
        ⟨⟨200, "application/json", .json record⟩, [record], true⟩

/-- The result record assembled by the standard-mode branch
(lines 172 to 180). -/
structure StandardResult where
  original : String
  transformed : JsonValue
  transformation : String
  availableTransforms : List String
  timestamp : String
  status : String
  processedBy : String

/-- `x || d` for the optional string fields of the typed standard-mode
input. -/
def strOrDefault (o : Option String) (d : String) : String :=
  match o with
  | some s => if s ≠ "" then s else d
  | none => d

/-- The standard-mode branch (lines 157 to 186): defaults, engine, record
assembly; a thrown error propagates and fails the run (modelled as
`Except.error`). -/
def standardRun (msg transform : Option String) (timestamp : String) :
    Except Unit StandardResult :=
  let message := strOrDefault msg defaultMessage
  let tname := strOrDefault transform "emojify"
  match applyTransformJS tname message with
  | .error e => .error e
  | .ok transformed =>
    .ok ⟨message, transformed, tname, registryNames, timestamp, "success",
      "Fun Text Transformer 🎨 (Standard Mode)"⟩

/-! ## Supporting lemmas -/

lemma replaceByAux_nil (f : Char → Char → Bool) (pat rep : List Char) :
    ∀ fuel, replaceByAux f pat rep fuel [] = [] := by
  intro fuel
  cases fuel <;> rfl

lemma replaceCI_full_match (pat rep s : List Char)
    (hne : pat.isEmpty = false) (hsw : startsWithBy ciEq pat s = true)
    (hlen : s.length = pat.length) : replaceCI pat rep s = rep := by
  cases s with
  | nil =>
    cases pat with
    | nil => simp [List.isEmpty] at hne
    | cons p ps => simp [startsWithBy] at hsw
  | cons c cs =>
    have hdrop : (c :: cs).drop pat.length = [] := by
      rw [← hlen]
      exact List.drop_length _
    show replaceByAux ciEq pat rep (cs.length + 1) (c :: cs) = rep
    rw [replaceByAux, if_pos (by rw [hne, hsw]; rfl), hdrop,
      replaceByAux_nil, List.append_nil]

lemma lookup_none_of_not_mem_keys {β : Type} (a : String) :
    ∀ l : List (String × β), a ∉ l.map Prod.fst → List.lookup a l = none := by
  intro l
  induction l with
  | nil => intro _; rfl
  | cons p rest ih =>
    intro h
    obtain ⟨k, b⟩ := p
    have h1 : (a == k) = false := by
      have : a ≠ k := fun he => h (by simp [he])
      simpa using this
    have h2 : a ∉ rest.map Prod.fst := fun hm => h (by simp [hm])
    simp only [List.lookup, h1]
    exact ih h2

lemma effectiveBody_of_body_empty (req : StandbyRequest)
    (h : req.body = "") : effectiveBody req = "" := by
  unfold effectiveBody
  rw [h, ite_self]

/-! ## Claim C1: the standard-mode end-to-end scenario

The transformed text and the transformation name come out as the claim says,
but the registry of the source has eight own keys, not nine: there is no
`ai` entry, although the README of the actor documents
`availableTransforms` as the nine-name list ending in `ai`. -/

/-- C1: evaluation of the standard-mode run on the input message
`This is a cool and happy message!` with transform `emojify`: the record has
the expected transformed text (containing `cool 😎` and `happy 😊`) and
transformation name, but its `availableTransforms` is the eight-name registry
list, which differs from the nine-name list (ending in `ai`) stated by the
claim and by the README. -/
theorem c1_standard_emojify_missing_ai :
    ∀ ts : String,
      (standardRun (some "This is a cool and happy message!")
          (some "emojify") ts).map (fun r => r.transformation) =
        .ok "emojify" ∧
      (standardRun (some "This is a cool and happy message!")
          (some "emojify") ts).map (fun r => r.transformed) =
        .ok (.str (emojify "This is a cool and happy message!")) ∧
      emojify "This is a cool and happy message!" =
        "This is a cool 😎 and happy 😊 message!" ∧
      containsSub ("cool 😎".data)
        ("This is a cool 😎 and happy 😊 message!".data) = true ∧
      containsSub ("happy 😊".data)
        ("This is a cool 😎 and happy 😊 message!".data) = true ∧
      (standardRun (some "This is a cool and happy message!")
          (some "emojify") ts).map (fun r => r.availableTransforms) =
        .ok ["reverse", "uppercase", "lowercase", "leetspeak", "spongebob",
          "emojify", "pirate", "uwu"] ∧
      (["reverse", "uppercase", "lowercase", "leetspeak", "spongebob",
          "emojify", "pirate", "uwu"] : List String) ≠
        ["reverse", "uppercase", "lowercase", "leetspeak", "spongebob",
          "emojify", "pirate", "uwu", "ai"] := by
  intro ts
  exact ⟨rfl, rfl, by decide, by decide, by decide, rfl, by decide⟩

/-! ## Claim C2: unknown transform names

Indexing the object literal with a name that is not an own key but is
inherited from `Object.prototype` yields a truthy value, so the claimed
identity fallback fails there; it holds for every other unknown name. -/

/-- C2 counterexample: `toString` is absent from the registry, yet the
engine returns `[object Undefined]` rather than the input text. -/
theorem c2_unknown_name_counterexample :
    ("toString" ∉ registryNames) ∧
      applyTransformJS "toString" "hi" = .ok (.str "[object Undefined]") ∧
      JsonValue.str "[object Undefined]" ≠ JsonValue.str "hi" := by
  refine ⟨by decide, rfl, ?_⟩
  intro h
  injection h with h2
  exact absurd h2 (by decide)

/-- C2 (amended): for every input text and every transform name that is
absent from the registry and not inherited from `Object.prototype`, the
engine returns the input text unchanged and no error is raised. -/
theorem c2_unknown_name_identity :
    ∀ (text name : String), name ∉ registryNames → name ∉ protoNames →
      applyTransformJS name text = .ok (.str text) := by
  intro text name h1 h2
  show applyTransformValue (.str name) (.str text) = .ok (.str text)
  have hl : List.lookup (jsPropertyKey (.str name)) registryPairs = none :=
    lookup_none_of_not_mem_keys _ _ h1
  simp only [applyTransformValue, hl]
  exact if_neg h2

/-- C2 witness: the unknown name `nope` leaves the text `hi` unchanged. -/
theorem c2_unknown_name_identity_witness :
    applyTransformJS "nope" "hi" = .ok (.str "hi") :=
  c2_unknown_name_identity "hi" "nope" (by decide) (by decide)

/-! ## Claim C3: query-parameter extraction and the emojify default -/

/-- C3: a standby request with no body and query
`?message=hi&transform=reverse` normalizes to message `hi` and transform
`reverse`; for every request with no body, whenever the `transform` query
parameter is absent or empty the normalized transform is `emojify`, and
whenever the `message` query parameter is absent or empty (even with a
`transform` parameter present) the normalized pair is the default message
with transform `emojify`. -/
theorem c3_query_normalization :
    normalizeStandby ⟨"GET", "/?message=hi&transform=reverse", "", false⟩ =
        .ok (.str "hi", .str "reverse") ∧
      (∀ req : StandbyRequest, req.body = "" →
        optTruthyStr (queryParam req.url "transform") = false →
        ∃ m, normalizeStandby req = .ok (m, .str "emojify")) ∧
      (∀ req : StandbyRequest, req.body = "" →
        optTruthyStr (queryParam req.url "message") = false →
        normalizeStandby req = .ok (.str defaultMessage, .str "emojify")) := by
  refine ⟨rfl, ?_, ?_⟩
  · intro req hb ht
    have he : effectiveBody req = "" := effectiveBody_of_body_empty req hb
    unfold normalizeStandby
    rw [he]
    unfold normalizeInput
    rw [if_neg (not_not_intro rfl)]
    by_cases hu : req.url = ""
    · rw [if_neg (not_not_intro hu)]
      exact ⟨.str defaultMessage, rfl⟩
    · rw [if_pos hu]
      rcases hq : queryParam req.url "message" with _ | v
      · refine ⟨.str defaultMessage, ?_⟩
        simp [optTruthyStr, jsOrDefault]
      · by_cases hv : v = ""
        · refine ⟨.str defaultMessage, ?_⟩
          simp [hv, optTruthyStr, jsOrDefault]
        · have hvt : optTruthyStr (some v) = true := by
            simp [optTruthyStr, hv]
          refine ⟨.str v, ?_⟩
          simp [hvt, ht, jsOrDefault, jsTruthy, hv]
  · intro req hb hm
    have he : effectiveBody req = "" := effectiveBody_of_body_empty req hb
    unfold normalizeStandby
    rw [he]
    unfold normalizeInput
    rw [if_neg (not_not_intro rfl)]
    by_cases hu : req.url = ""
    · rw [if_neg (not_not_intro hu)]
      rfl
    · rw [if_pos hu, if_neg (by rw [hm]; exact Bool.false_ne_true)]
      rfl

/-- C3 witness: with no body and only a `transform` query parameter, the
message and the transform both fall back to their defaults. -/
theorem c3_query_normalization_witness :
    normalizeStandby ⟨"GET", "/?transform=reverse", "", false⟩ =
      .ok (.str "Hello from Fun Text Transformer!", .str "emojify") :=
  c3_query_normalization.2.2 ⟨"GET", "/?transform=reverse", "", false⟩ rfl
    (by decide)

/-! ## Claim C4: bodies that are not a message/transform JSON object

The raw-body fallback is triggered only when `JSON.parse` throws.  A body
that parses to non-object JSON (so it certainly fails to parse as a
`message`/`transform` object) does not become the message: its absent
`message` property falls back to the default placeholder, and a body parsing
to JSON `null` even makes the property access throw. -/

/-- C4 counterexample: the body `123` is not a message/transform JSON
object, yet normalization does not make the raw body the message: the
message is the default placeholder, which differs from the raw body. -/
theorem c4_nonobject_body_counterexample :
    normalizeStandby ⟨"POST", "/", "123", false⟩ =
        .ok (.str "Hello from Fun Text Transformer!", .str "emojify") ∧
      ("Hello from Fun Text Transformer!" : String) ≠ "123" := by
  exact ⟨rfl, by decide⟩

/-- C4 (amended): for every standby request whose effective body is nonempty
and fails JSON parsing (the parser raises), normalization does not raise an
error: the entire raw body becomes the literal message and the transform
falls back to the default `emojify`; a body parsing to JSON `null` instead
reaches the error path. -/
theorem c4_parse_failure_raw_body :
    (∀ req : StandbyRequest, effectiveBody req ≠ "" →
        jsonParse (effectiveBody req) = none →
        normalizeStandby req =
          .ok (.str (effectiveBody req), .str "emojify")) ∧
      normalizeStandby ⟨"POST", "/", "null", false⟩ = .error () := by
  constructor
  · intro req hne hparse
    have hni : normalizeInput (effectiveBody req) req.url =
        .ok (some (.str (effectiveBody req)), none) := by
      unfold normalizeInput
      rw [if_pos hne, hparse]
    unfold normalizeStandby
    rw [hni]
    show Except.ok
        (jsOrDefault (some (.str (effectiveBody req))) (.str defaultMessage),
          jsOrDefault none (.str "emojify")) = _
    simp [jsOrDefault, jsTruthy, hne]
  · rfl

/-- C4 witness: the plain-text body `hi` becomes the message with the
default transform. -/
theorem c4_parse_failure_raw_body_witness :
    normalizeStandby ⟨"POST", "/", "hi", false⟩ =
      .ok (.str "hi", .str "emojify") :=
  c4_parse_failure_raw_body.1 ⟨"POST", "/", "hi", false⟩ (by decide) rfl

/-! ## Claim C5: the readiness probe -/

/-- C5: every standby request carrying the readiness-probe header, whatever
its method, body, or query string, is answered with the fixed 200 text/plain
`Ready!` response; the pipeline never runs and nothing is written to the
dataset. -/
theorem c5_readiness_probe :
    ∀ (req : StandbyRequest) (ts : String), req.readinessProbeHeader = true →
      standbyHandler req ts =
        ⟨⟨200, "text/plain", .text "Ready!\n"⟩, [], false⟩ := by
  intro req ts h
  unfold standbyHandler
  rw [if_pos h]

/-- C5 witness: a POST with a body and query parameters but carrying the
probe header gets the fixed ready response and no dataset write. -/
theorem c5_readiness_probe_witness :
    standbyHandler ⟨"POST", "/?message=x&transform=reverse", "x", true⟩ "T0" =
      ⟨⟨200, "text/plain", .text "Ready!\n"⟩, [], false⟩ :=
  c5_readiness_probe ⟨"POST", "/?message=x&transform=reverse", "x", true⟩
    "T0" rfl

/-! ## Claim C9: the body is read only for POST and PUT -/

/-- C9: for every standby request whose method is neither POST nor PUT, the
body is ignored: normalization coincides with that of a body-less GET request
to the same target, so message and transform come only from the query string
or the defaults. -/
theorem c9_body_read_only_post_put :
    ∀ req : StandbyRequest, req.method ≠ "POST" → req.method ≠ "PUT" →
      normalizeStandby req =
        normalizeStandby ⟨"GET", req.url, "", req.readinessProbeHeader⟩ := by
  intro req h1 h2
  have he : effectiveBody req = "" := by
    unfold effectiveBody
    rw [if_neg (not_or.mpr ⟨h1, h2⟩)]
  unfold normalizeStandby
  rw [he]
  rfl

/-- C9 witness: a DELETE request with a body normalizes exactly like the
body-less GET request to the same target. -/
theorem c9_body_read_only_post_put_witness :
    normalizeStandby ⟨"DELETE", "/?message=hi", "IGNORED BODY", false⟩ =
      normalizeStandby ⟨"GET", "/?message=hi", "", false⟩ :=
  c9_body_read_only_post_put ⟨"DELETE", "/?message=hi", "IGNORED BODY", false⟩
    (by decide) (by decide)

/-! ## Claim C10: emojify lower-cases the matched trigger -/

/-- C10: for every entry of the emojify table, a full case-insensitive match
of the trigger word is replaced by the lowercase trigger word, a space and
its emoji, so the casing of the matched occurrence is not preserved; in
particular `emojify "HAPPY" = "happy 😊"`. -/
theorem c10_emojify_casefold :
    (∀ p ∈ emojiMapList, ∀ s : List Char,
        startsWithBy ciEq p.1.data s = true → s.length = p.1.data.length →
        replaceCI p.1.data (emojiRep p) s = emojiRep p) ∧
      emojify "HAPPY" = "happy 😊" := by
  constructor
  · intro p hp s hsw hlen
    have hall : ∀ q ∈ emojiMapList, (Prod.fst q).data.isEmpty = false := by
      decide
    exact replaceCI_full_match _ _ _ (hall p hp) hsw hlen
  · decide

/-- C10 witness: the all-caps trigger `HAPPY` is fully replaced by the
lowercase trigger and its emoji. -/
theorem c10_emojify_casefold_witness :
    replaceCI ("happy".data) (emojiRep ("happy", "😊")) ("HAPPY".data) =
      emojiRep ("happy", "😊") :=
  c10_emojify_casefold.1 ("happy", "😊") (by decide) ("HAPPY".data)
    (by decide) (by decide)

end FunText
